import Mathlib

/-!
# Verification of the `CookingRecorder` recording-session state machine

Shallow embedding of `src/components/CookingRecorder.tsx` from the
`momscookbook-ai` repository.

The component keeps its session state in a React `useState` record
(`isRecording`, `isPaused`, `duration`, `videoBlob`) plus mutable refs
(`mediaRecorderRef`, `streamRef`, `chunksRef`, `intervalRef`).  All event
handlers (button clicks, the `setInterval` callback, `MediaRecorder`
callbacks) run on the single browser event loop, so each handler is modelled
as an atomic state-transition function on one state record `CState`, and an
execution of the component is a fold of those transitions over a list of
events.

Modelling choices, each tied to a line of the source:

* A media chunk (`event.data` in `ondataavailable`, line 77) is its byte
  content, `List Nat`; its `size` is the list length.  A `Blob` built from a
  chunk list (line 84) is the concatenation (`List.flatten`) of the chunks.
* `MediaRecorder` (lines 71-93) is a record with its platform state
  (`recording` / `paused` / `inactive`), the value of
  `recordingState.duration` captured by the `onstop` closure at the moment
  `startRecording` ran (line 88: the closure reads the `duration` binding of
  the render that created the handler, not the live counter), and an
  allocation id distinguishing recorder instances (`new MediaRecorder`,
  line 71, constructs a fresh instance each time).
* `getUserMedia` streams (line 35) are numbered by an allocation counter.
  A stream is *active* unless some transition has stopped its tracks; the
  component never calls `MediaStreamTrack.stop()` on any path, so the set
  `stoppedStreams` of released stream ids is changed by no transition.
* `setInterval` (line 97) timers: `startRecording` always registers a fresh
  timer and overwrites `intervalRef`; `stopRecording` clears only the timer
  currently held by `intervalRef` (line 115).  Since every live timer runs
  the same functional state update, the live timers are interchangeable and
  a count `intervals` suffices: start adds one, a firing stop removes one.
* The platform fires `ondataavailable` only while the recorder is in its
  `recording` state (production is suspended while paused); a final chunk
  delivered at stop time is represented as a `data` event placed before the
  `stop` event in the trace.  The handler itself (lines 77-81) appends the
  chunk to `chunksRef` iff `event.data.size > 0`.
* `onRecordingComplete` (lines 86-90) is modelled by prepending the emitted
  `RecordingResult` to a log `emitted`.  The wall-clock `timestamp` field is
  an opaque environment value and is not modelled.
-/

/-- Platform state of a `MediaRecorder` instance. -/
inductive RState
  | recording
  | paused
  | inactive
deriving DecidableEq, Repr

/-- A `MediaRecorder` instance (`mediaRecorderRef.current`).
`capturedDuration` is the value of `recordingState.duration` that the
`onstop` closure captured when `startRecording` installed it (line 88);
`rid` is an allocation id identifying this instance. -/
structure Recorder where
  rstate : RState
  capturedDuration : Nat
  rid : Nat
deriving DecidableEq, Repr

/-- The React state record of the component (lines 8-14, minus the unused
`audioBlob`, which no code path ever writes). -/
structure RecordingState where
  isRecording : Bool
  isPaused : Bool
  duration : Nat
  videoBlob : Option (List Nat)
deriving DecidableEq, Repr

/-- The value passed to `onRecordingComplete` (lines 86-90): the finalized
artifact bytes and the reported duration.  The ISO timestamp is an opaque
environment value, not modelled. -/
structure RecordingResult where
  videoBlob : List Nat
  duration : Nat
deriving DecidableEq, Repr

/-- Complete component state: React state, refs, and the environment
bookkeeping (stream / recorder / timer allocators, emission log). -/
structure CState where
  recordingState : RecordingState
  hasPermissions : Bool
  mediaRecorder : Option Recorder
  streamRef : Option Nat
  chunks : List (List Nat)
  intervals : Nat
  nextStream : Nat
  nextRid : Nat
  stoppedStreams : List Nat
  emitted : List RecordingResult
deriving DecidableEq, Repr

/-- Initial state: the component as first mounted (lines 18-31). -/
def init : CState where
  recordingState := { isRecording := false, isPaused := false, duration := 0, videoBlob := none }
  hasPermissions := false
  mediaRecorder := none
  streamRef := none
  chunks := []
  intervals := 0
  nextStream := 0
  nextRid := 0
  stoppedStreams := []
  emitted := []

/-- A stream handle is active iff it has been allocated by `getUserMedia`
and no transition has stopped its tracks. -/
def streamActive (s : CState) (k : Nat) : Bool :=
  decide (k < s.nextStream) && !(s.stoppedStreams.contains k)

/-- Handler `requestPermissions`, success branch (lines 33-57): binds a freshly
acquired stream to `streamRef` (the previous stream, if any, is not
touched) and sets `hasPermissions`. -/
def requestPermissionsGranted (s : CState) : CState :=
  { s with
    streamRef := some s.nextStream
    nextStream := s.nextStream + 1
    hasPermissions := true }

/-- Handler `startRecording` (lines 67-107): returns unchanged if no stream is
bound (line 68); otherwise clears `chunksRef`, constructs a fresh
`MediaRecorder` whose `onstop` closure captures the current `duration`,
starts it, sets `isRecording`/`isPaused`/`duration` and registers a new
interval timer. -/
def startRecording (s : CState) : CState :=
  match s.streamRef with
  | none => s
  | some _ =>
    { s with
      chunks := []
      mediaRecorder := some ⟨RState.recording, s.recordingState.duration, s.nextRid⟩
      nextRid := s.nextRid + 1
      recordingState :=
        { s.recordingState with isRecording := true, isPaused := false, duration := 0 }
      intervals := s.intervals + 1 }

/-- Handler `stopRecording` (lines 109-123): guarded by a bound recorder and
`isRecording`.  Stops the recorder, whose `onstop` handler (lines 83-91)
concatenates `chunksRef` into the artifact, stores it in `videoBlob` and
emits a `RecordingResult` carrying the closure-captured duration; clears
the current interval timer. -/
def stopRecording (s : CState) : CState :=
  match s.mediaRecorder with
  | none => s
  | some r =>
    if s.recordingState.isRecording then
      { s with
        mediaRecorder := some { r with rstate := RState.inactive }
        emitted := ⟨s.chunks.flatten, r.capturedDuration⟩ :: s.emitted
        recordingState :=
          { s.recordingState with
            isRecording := false
            isPaused := false
            videoBlob := some s.chunks.flatten }
        intervals := s.intervals - 1 }
    else s

/-- Handler `pauseRecording` (lines 125-135): guarded by a bound recorder,
`isRecording` and `!isPaused`; pauses the recorder and sets `isPaused`. -/
def pauseRecording (s : CState) : CState :=
  match s.mediaRecorder with
  | none => s
  | some r =>
    if s.recordingState.isRecording && !s.recordingState.isPaused then
      { s with
        mediaRecorder := some { r with rstate := RState.paused }
        recordingState := { s.recordingState with isPaused := true } }
    else s

/-- Handler `resumeRecording` (lines 137-147): guarded by a bound recorder,
`isRecording` and `isPaused`; resumes the recorder and clears `isPaused`. -/
def resumeRecording (s : CState) : CState :=
  match s.mediaRecorder with
  | none => s
  | some r =>
    if s.recordingState.isRecording && s.recordingState.isPaused then
      { s with
        mediaRecorder := some { r with rstate := RState.recording }
        recordingState := { s.recordingState with isPaused := false } }
    else s

/-- One firing of a live interval timer (lines 97-101): increments
`duration` unless `isPaused`.  No-op when no timer is live. -/
def intervalTick (s : CState) : CState :=
  if 0 < s.intervals then
    if s.recordingState.isPaused then s
    else
      { s with
        recordingState :=
          { s.recordingState with duration := s.recordingState.duration + 1 } }
  else s

/-- Handler `ondataavailable` (lines 77-81) for a chunk emitted by the current
recorder: the platform produces chunks only while the recorder is in its
`recording` state; the handler appends the chunk iff its size is
positive. -/
def onDataAvailable (s : CState) (c : List Nat) : CState :=
  match s.mediaRecorder with
  | none => s
  | some r =>
    if r.rstate = RState.recording then
      if 0 < c.length then { s with chunks := s.chunks ++ [c] } else s
    else s

/-- Events the component reacts to: the two outcomes of the permission
request, the four session operations, a timer tick, and a chunk delivery
from the platform recorder. -/
inductive Ev
  | accessOk
  | accessFail
  | start
  | stop
  | pause
  | resume
  | tick
  | data (c : List Nat)
deriving DecidableEq, Repr

/-- Dispatch one event to its handler.  `accessFail` (lines 58-64) only
shows a toast and changes no state. -/
def step (s : CState) : Ev → CState
  | Ev.accessOk => requestPermissionsGranted s
  | Ev.accessFail => s
  | Ev.start => startRecording s
  | Ev.stop => stopRecording s
  | Ev.pause => pauseRecording s
  | Ev.resume => resumeRecording s
  | Ev.tick => intervalTick s
  | Ev.data c => onDataAvailable s c

/-- Run a trace of events. -/
def run (s : CState) (t : List Ev) : CState := t.foldl step s

/-- Phases of the session state machine (spec section 4.2). -/
inductive Phase
  | idle
  | ready
  | recording
  | paused
  | stopped
deriving DecidableEq, Repr

/-- The phase realized by a component state: no permission is `idle`;
with permission, an active recording is `recording`/`paused` by the pause
flag; otherwise a populated finalized artifact marks `stopped` (the spec's
data model notes the artifact reference is populated only in `stopped`),
else `ready`. -/
def phase (s : CState) : Phase :=
  if s.hasPermissions = false then Phase.idle
  else if s.recordingState.isRecording then
    if s.recordingState.isPaused then Phase.paused else Phase.recording
  else if s.recordingState.videoBlob.isSome then Phase.stopped
  else Phase.ready

example : phase init = Phase.idle := by decide
example : phase (run init [Ev.accessOk]) = Phase.ready := by decide
example : phase (run init [Ev.accessOk, Ev.start]) = Phase.recording := by decide
example : phase (run init [Ev.accessOk, Ev.start, Ev.pause]) = Phase.paused := by decide
example : phase (run init [Ev.accessOk, Ev.start, Ev.stop]) = Phase.stopped := by decide
example :
    (run init [Ev.accessOk, Ev.start, Ev.tick, Ev.data [5, 6], Ev.tick, Ev.stop]).emitted =
      [⟨[5, 6], 0⟩] := by decide

/-! ## Reachability invariant

Facts that hold in every state the component can reach, used to settle the
claims over arbitrary event traces. -/

/-- Invariant of reachable component states. -/
def SInv (s : CState) : Prop :=
  (s.recordingState.isPaused = true → s.recordingState.isRecording = true) ∧
  (s.recordingState.isRecording = true → s.mediaRecorder.isSome = true) ∧
  (s.recordingState.isRecording = true → s.hasPermissions = true) ∧
  (s.streamRef.isSome = true → s.hasPermissions = true) ∧
  (s.hasPermissions = true → s.streamRef.isSome = true) ∧
  (s.recordingState.videoBlob.isSome = true → s.hasPermissions = true) ∧
  (∀ r, s.mediaRecorder = some r → r.rid < s.nextRid) ∧
  (∀ k, s.streamRef = some k → k < s.nextStream) ∧
  (s.recordingState.videoBlob.isSome = true → s.recordingState.isRecording = false →
    ∃ r, s.mediaRecorder = some r ∧ r.rstate = RState.inactive) ∧
  s.stoppedStreams = []

/-- Handler `ondataavailable` only appends to the chunk accumulator; every other
field of the state is untouched. -/
theorem onDataAvailable_preserves (s : CState) (c : List Nat) :
    (onDataAvailable s c).recordingState = s.recordingState ∧
    (onDataAvailable s c).hasPermissions = s.hasPermissions ∧
    (onDataAvailable s c).mediaRecorder = s.mediaRecorder ∧
    (onDataAvailable s c).streamRef = s.streamRef ∧
    (onDataAvailable s c).nextStream = s.nextStream ∧
    (onDataAvailable s c).nextRid = s.nextRid ∧
    (onDataAvailable s c).stoppedStreams = s.stoppedStreams ∧
    (onDataAvailable s c).emitted = s.emitted := by
  unfold onDataAvailable
  split
  · exact ⟨rfl, rfl, rfl, rfl, rfl, rfl, rfl, rfl⟩
  · split
    · split
      · exact ⟨rfl, rfl, rfl, rfl, rfl, rfl, rfl, rfl⟩
      · exact ⟨rfl, rfl, rfl, rfl, rfl, rfl, rfl, rfl⟩
    · exact ⟨rfl, rfl, rfl, rfl, rfl, rfl, rfl, rfl⟩

theorem sinv_init : SInv init := by
  refine ⟨?_, ?_, ?_, ?_, ?_, ?_, ?_, ?_, ?_, ?_⟩ <;> simp [init]

theorem sinv_step (s : CState) (e : Ev) (h : SInv s) : SInv (step s e) := by
  obtain ⟨h1, h2, h3, h4, h5, h6, h7, h8, h9, h10⟩ := h
  cases e with
  | accessOk =>
    refine ⟨?_, ?_, ?_, ?_, ?_, ?_, ?_, ?_, ?_, ?_⟩ <;>
      simp_all [step, requestPermissionsGranted]
  | accessFail =>
    exact ⟨h1, h2, h3, h4, h5, h6, h7, h8, h9, h10⟩
  | start =>
    show SInv (startRecording s)
    unfold startRecording
    cases hs : s.streamRef with
    | none => exact ⟨h1, h2, h3, h4, h5, h6, h7, h8, h9, h10⟩
    | some k =>
      have hp : s.hasPermissions = true := h4 (by simp [hs])
      refine ⟨?_, ?_, ?_, ?_, ?_, ?_, ?_, ?_, ?_, ?_⟩ <;> simp_all
  | stop =>
    show SInv (stopRecording s)
    unfold stopRecording
    cases hm : s.mediaRecorder with
    | none => exact ⟨h1, h2, h3, h4, h5, h6, h7, h8, h9, h10⟩
    | some r =>
      cases hrec : s.recordingState.isRecording with
      | false => simp only [hrec, if_false]; exact ⟨h1, h2, h3, h4, h5, h6, h7, h8, h9, h10⟩
      | true =>
        have hp : s.hasPermissions = true := h3 hrec
        have hrid : r.rid < s.nextRid := h7 r hm
        refine ⟨?_, ?_, ?_, ?_, ?_, ?_, ?_, ?_, ?_, ?_⟩ <;> simp_all
  | pause =>
    show SInv (pauseRecording s)
    unfold pauseRecording
    cases hm : s.mediaRecorder with
    | none => exact ⟨h1, h2, h3, h4, h5, h6, h7, h8, h9, h10⟩
    | some r =>
      cases hg : s.recordingState.isRecording && !s.recordingState.isPaused with
      | false => simp only [hg, if_false]; exact ⟨h1, h2, h3, h4, h5, h6, h7, h8, h9, h10⟩
      | true =>
        have hrec : s.recordingState.isRecording = true := by
          rcases Bool.and_eq_true .. |>.mp hg with ⟨ha, _⟩; exact ha
        have hrid : r.rid < s.nextRid := h7 r hm
        refine ⟨?_, ?_, ?_, ?_, ?_, ?_, ?_, ?_, ?_, ?_⟩ <;> simp_all
  | resume =>
    show SInv (resumeRecording s)
    unfold resumeRecording
    cases hm : s.mediaRecorder with
    | none => exact ⟨h1, h2, h3, h4, h5, h6, h7, h8, h9, h10⟩
    | some r =>
      cases hg : s.recordingState.isRecording && s.recordingState.isPaused with
      | false => simp only [hg, if_false]; exact ⟨h1, h2, h3, h4, h5, h6, h7, h8, h9, h10⟩
      | true =>
        have hrec : s.recordingState.isRecording = true := by
          rcases Bool.and_eq_true .. |>.mp hg with ⟨ha, _⟩; exact ha
        have hrid : r.rid < s.nextRid := h7 r hm
        refine ⟨?_, ?_, ?_, ?_, ?_, ?_, ?_, ?_, ?_, ?_⟩ <;> simp_all
  | tick =>
    show SInv (intervalTick s)
    unfold intervalTick
    split
    · split
      · exact ⟨h1, h2, h3, h4, h5, h6, h7, h8, h9, h10⟩
      · refine ⟨?_, ?_, ?_, ?_, ?_, ?_, ?_, ?_, ?_, ?_⟩ <;> simp_all
    · exact ⟨h1, h2, h3, h4, h5, h6, h7, h8, h9, h10⟩
  | data c =>
    show SInv (onDataAvailable s c)
    obtain ⟨e1, e2, e3, e4, e5, e6, e7, e8⟩ := onDataAvailable_preserves s c
    unfold SInv
    rw [e1, e2, e3, e4, e5, e6, e7]
    exact ⟨h1, h2, h3, h4, h5, h6, h7, h8, h9, h10⟩

theorem sinv_run (t : List Ev) : ∀ s : CState, SInv s → SInv (run s t) := by
  induction t with
  | nil => intro s h; exact h
  | cons e r ih => intro s h; exact ih (step s e) (sinv_step s e h)

theorem sinv_reach (t : List Ev) : SInv (run init t) := sinv_run t init sinv_init

/-! ## Phase characterizations and handler behavior -/

theorem phase_idle_iff (s : CState) : phase s = Phase.idle ↔ s.hasPermissions = false := by
  unfold phase
  cases hp : s.hasPermissions <;>
    cases hr : s.recordingState.isRecording <;>
    cases hpa : s.recordingState.isPaused <;>
    cases hb : s.recordingState.videoBlob.isSome <;>
    simp_all [Option.isSome_iff_ne_none]

theorem phase_ready_iff (s : CState) :
    phase s = Phase.ready ↔
      s.hasPermissions = true ∧ s.recordingState.isRecording = false ∧
        s.recordingState.videoBlob.isSome = false := by
  unfold phase
  cases hp : s.hasPermissions <;>
    cases hr : s.recordingState.isRecording <;>
    cases hpa : s.recordingState.isPaused <;>
    cases hb : s.recordingState.videoBlob.isSome <;>
    simp_all [Option.isSome_iff_ne_none]

theorem phase_recording_iff (s : CState) :
    phase s = Phase.recording ↔
      s.hasPermissions = true ∧ s.recordingState.isRecording = true ∧
        s.recordingState.isPaused = false := by
  unfold phase
  cases hp : s.hasPermissions <;>
    cases hr : s.recordingState.isRecording <;>
    cases hpa : s.recordingState.isPaused <;>
    cases hb : s.recordingState.videoBlob.isSome <;>
    simp_all [Option.isSome_iff_ne_none]

theorem phase_paused_iff (s : CState) :
    phase s = Phase.paused ↔
      s.hasPermissions = true ∧ s.recordingState.isRecording = true ∧
        s.recordingState.isPaused = true := by
  unfold phase
  cases hp : s.hasPermissions <;>
    cases hr : s.recordingState.isRecording <;>
    cases hpa : s.recordingState.isPaused <;>
    cases hb : s.recordingState.videoBlob.isSome <;>
    simp_all [Option.isSome_iff_ne_none]

theorem phase_stopped_iff (s : CState) :
    phase s = Phase.stopped ↔
      s.hasPermissions = true ∧ s.recordingState.isRecording = false ∧
        s.recordingState.videoBlob.isSome = true := by
  unfold phase
  cases hp : s.hasPermissions <;>
    cases hr : s.recordingState.isRecording <;>
    cases hpa : s.recordingState.isPaused <;>
    cases hb : s.recordingState.videoBlob.isSome <;>
    simp_all [Option.isSome_iff_ne_none]

theorem startRecording_noop (s : CState) (h : s.streamRef = none) :
    startRecording s = s := by
  unfold startRecording; rw [h]

theorem startRecording_fires (s : CState) (k : Nat) (hs : s.streamRef = some k) :
    startRecording s =
      { s with
        chunks := []
        mediaRecorder := some ⟨RState.recording, s.recordingState.duration, s.nextRid⟩
        nextRid := s.nextRid + 1
        recordingState :=
          { s.recordingState with isRecording := true, isPaused := false, duration := 0 }
        intervals := s.intervals + 1 } := by
  unfold startRecording; rw [hs]

theorem pauseRecording_noop (s : CState)
    (h : s.recordingState.isRecording = false ∨ s.recordingState.isPaused = true) :
    pauseRecording s = s := by
  unfold pauseRecording
  split
  · rfl
  · rcases h with h | h <;> simp [h]

theorem pauseRecording_fires (s : CState) (r : Recorder) (hm : s.mediaRecorder = some r)
    (h1 : s.recordingState.isRecording = true) (h2 : s.recordingState.isPaused = false) :
    pauseRecording s =
      { s with
        mediaRecorder := some { r with rstate := RState.paused }
        recordingState := { s.recordingState with isPaused := true } } := by
  unfold pauseRecording; rw [hm]; simp [h1, h2]

theorem resumeRecording_noop (s : CState)
    (h : s.recordingState.isRecording = false ∨ s.recordingState.isPaused = false) :
    resumeRecording s = s := by
  unfold resumeRecording
  split
  · rfl
  · rcases h with h | h <;> simp [h]

theorem resumeRecording_fires (s : CState) (r : Recorder) (hm : s.mediaRecorder = some r)
    (h1 : s.recordingState.isRecording = true) (h2 : s.recordingState.isPaused = true) :
    resumeRecording s =
      { s with
        mediaRecorder := some { r with rstate := RState.recording }
        recordingState := { s.recordingState with isPaused := false } } := by
  unfold resumeRecording; rw [hm]; simp [h1, h2]

theorem stopRecording_noop (s : CState) (h : s.recordingState.isRecording = false) :
    stopRecording s = s := by
  unfold stopRecording
  split
  · rfl
  · simp [h]

theorem stopRecording_fires (s : CState) (r : Recorder) (hm : s.mediaRecorder = some r)
    (h1 : s.recordingState.isRecording = true) :
    stopRecording s =
      { s with
        mediaRecorder := some { r with rstate := RState.inactive }
        emitted := ⟨s.chunks.flatten, r.capturedDuration⟩ :: s.emitted
        recordingState :=
          { s.recordingState with
            isRecording := false
            isPaused := false
            videoBlob := some s.chunks.flatten }
        intervals := s.intervals - 1 } := by
  unfold stopRecording; rw [hm]; simp [h1]

/-- A recorder bound in a reachable recording state. -/
theorem recorder_of_isRecording (s : CState) (h : SInv s)
    (hr : s.recordingState.isRecording = true) : ∃ r, s.mediaRecorder = some r := by
  obtain ⟨-, h2, -⟩ := h
  exact Option.isSome_iff_exists.mp (h2 hr)

/-! ## Claim theorems -/

/-- C3: starting from phase = `recording` (in any reachable state), calling
`pause()` twice in a row leaves the phase `paused` after both calls, the
second call changes nothing at all, and in particular the elapsed-seconds
counter has the same value before the second call as after it. -/
theorem c3_pause_idempotent (t : List Ev) (h : phase (run init t) = Phase.recording) :
    phase (pauseRecording (run init t)) = Phase.paused ∧
    pauseRecording (pauseRecording (run init t)) = pauseRecording (run init t) ∧
    (pauseRecording (pauseRecording (run init t))).recordingState.duration =
      (pauseRecording (run init t)).recordingState.duration := by
  have hinv := sinv_reach t
  set s := run init t with hs
  obtain ⟨hp, hr, hpa⟩ := (phase_recording_iff s).mp h
  obtain ⟨r, hm⟩ := recorder_of_isRecording s hinv hr
  rw [pauseRecording_fires s r hm hr hpa]
  have hnoop :
      pauseRecording
        { s with
          mediaRecorder := some { r with rstate := RState.paused }
          recordingState := { s.recordingState with isPaused := true } } =
      { s with
        mediaRecorder := some { r with rstate := RState.paused }
        recordingState := { s.recordingState with isPaused := true } } := by
    apply pauseRecording_noop
    right
    rfl
  refine ⟨?_, hnoop, by rw [hnoop]⟩
  rw [phase_paused_iff]
  exact ⟨hp, hr, rfl⟩

/-- Witness for C3 at the concrete trace `accessOk; start`. -/
theorem c3_pause_idempotent_witness :
    phase (pauseRecording (run init [Ev.accessOk, Ev.start])) = Phase.paused ∧
    pauseRecording (pauseRecording (run init [Ev.accessOk, Ev.start])) =
      pauseRecording (run init [Ev.accessOk, Ev.start]) ∧
    (pauseRecording (pauseRecording (run init [Ev.accessOk, Ev.start]))).recordingState.duration =
      (pauseRecording (run init [Ev.accessOk, Ev.start])).recordingState.duration :=
  c3_pause_idempotent [Ev.accessOk, Ev.start] (by decide)

/-- C2, counterexample to the claim as stated: in the reachable state after
`accessOk; start; tick; pause` the phase is `paused`, where `start()` is an
invalid operation by the section-4.2 state diagram, yet calling `start()`
there is not a no-op: it changes the phase to `recording` and resets the
elapsed-seconds counter from 1 to 0. -/
theorem c2_invalid_op_counterexample :
    phase (run init [Ev.accessOk, Ev.start, Ev.tick, Ev.pause]) = Phase.paused ∧
    startRecording (run init [Ev.accessOk, Ev.start, Ev.tick, Ev.pause]) ≠
      run init [Ev.accessOk, Ev.start, Ev.tick, Ev.pause] ∧
    phase (startRecording (run init [Ev.accessOk, Ev.start, Ev.tick, Ev.pause])) =
      Phase.recording ∧
    (run init [Ev.accessOk, Ev.start, Ev.tick, Ev.pause]).recordingState.duration = 1 ∧
    (startRecording (run init [Ev.accessOk, Ev.start, Ev.tick, Ev.pause])).recordingState.duration
      = 0 := by
  decide

/-- C2, amended: in every reachable state, the invalid (phase, operation)
pairs listed by the claim are no-ops — `start()` when no granted stream is
bound (phase `idle`), `pause()` when the phase is not `recording`,
`resume()` when the phase is not `paused`, and `stop()` when the phase is in
neither `recording` nor `paused` — leaving the entire state (phase, elapsed
seconds, chunk accumulator, emission log) unchanged; and every valid
transition of the section-4.2 diagram lands in its target phase.  However
`start()` invoked in phase `recording`, `paused` or `stopped` (also invalid
per the diagram) is NOT a no-op: it restarts a fresh recording, moving the
phase to `recording`, resetting the elapsed counter to 0 and clearing the
chunk accumulator. -/
theorem c2_transitions_amended (t : List Ev) :
    (phase (run init t) = Phase.idle → startRecording (run init t) = run init t) ∧
    (phase (run init t) ≠ Phase.recording → pauseRecording (run init t) = run init t) ∧
    (phase (run init t) ≠ Phase.paused → resumeRecording (run init t) = run init t) ∧
    (phase (run init t) ≠ Phase.recording → phase (run init t) ≠ Phase.paused →
      stopRecording (run init t) = run init t) ∧
    (phase (run init t) = Phase.idle →
      phase (requestPermissionsGranted (run init t)) = Phase.ready) ∧
    (phase (run init t) = Phase.ready → phase (startRecording (run init t)) = Phase.recording) ∧
    (phase (run init t) = Phase.recording → phase (pauseRecording (run init t)) = Phase.paused) ∧
    (phase (run init t) = Phase.paused → phase (resumeRecording (run init t)) = Phase.recording) ∧
    (phase (run init t) = Phase.recording → phase (stopRecording (run init t)) = Phase.stopped) ∧
    (phase (run init t) = Phase.paused → phase (stopRecording (run init t)) = Phase.stopped) ∧
    ((phase (run init t) = Phase.recording ∨ phase (run init t) = Phase.paused ∨
        phase (run init t) = Phase.stopped) →
      phase (startRecording (run init t)) = Phase.recording ∧
      (startRecording (run init t)).recordingState.duration = 0 ∧
      (startRecording (run init t)).chunks = []) := by
  obtain ⟨h1, h2, h3, h4, h5, h6, h7, h8, h9, h10⟩ := sinv_reach t
  set s := run init t with hs
  refine ⟨?_, ?_, ?_, ?_, ?_, ?_, ?_, ?_, ?_, ?_, ?_⟩
  · intro hidle
    have hperm := (phase_idle_iff s).mp hidle
    have hnone : s.streamRef = none := by
      cases hsr : s.streamRef with
      | none => rfl
      | some k =>
        have := h4 (by simp [hsr])
        rw [this] at hperm
        cases hperm
    exact startRecording_noop s hnone
  · intro hne
    cases hr : s.recordingState.isRecording with
    | false => exact pauseRecording_noop s (Or.inl hr)
    | true =>
      cases hpa : s.recordingState.isPaused with
      | true => exact pauseRecording_noop s (Or.inr hpa)
      | false => exact absurd ((phase_recording_iff s).mpr ⟨h3 hr, hr, hpa⟩) hne
  · intro hne
    cases hr : s.recordingState.isRecording with
    | false => exact resumeRecording_noop s (Or.inl hr)
    | true =>
      cases hpa : s.recordingState.isPaused with
      | false => exact resumeRecording_noop s (Or.inr hpa)
      | true => exact absurd ((phase_paused_iff s).mpr ⟨h3 hr, hr, hpa⟩) hne
  · intro hne1 hne2
    cases hr : s.recordingState.isRecording with
    | false => exact stopRecording_noop s hr
    | true =>
      cases hpa : s.recordingState.isPaused with
      | false => exact absurd ((phase_recording_iff s).mpr ⟨h3 hr, hr, hpa⟩) hne1
      | true => exact absurd ((phase_paused_iff s).mpr ⟨h3 hr, hr, hpa⟩) hne2
  · intro hidle
    have hperm := (phase_idle_iff s).mp hidle
    have hr : s.recordingState.isRecording = false := by
      cases hr : s.recordingState.isRecording with
      | false => rfl
      | true => rw [h3 hr] at hperm; cases hperm
    have hb : s.recordingState.videoBlob.isSome = false := by
      cases hb : s.recordingState.videoBlob.isSome with
      | false => rfl
      | true => rw [h6 hb] at hperm; cases hperm
    rw [phase_ready_iff]
    exact ⟨rfl, hr, hb⟩
  · intro hready
    obtain ⟨hp, hr, hb⟩ := (phase_ready_iff s).mp hready
    obtain ⟨k, hsr⟩ := Option.isSome_iff_exists.mp (h5 hp)
    rw [startRecording_fires s k hsr, phase_recording_iff]
    exact ⟨hp, rfl, rfl⟩
  · intro h
    obtain ⟨hp, hr, hpa⟩ := (phase_recording_iff s).mp h
    obtain ⟨r, hm⟩ := Option.isSome_iff_exists.mp (h2 hr)
    rw [pauseRecording_fires s r hm hr hpa, phase_paused_iff]
    exact ⟨hp, hr, rfl⟩
  · intro h
    obtain ⟨hp, hr, hpa⟩ := (phase_paused_iff s).mp h
    obtain ⟨r, hm⟩ := Option.isSome_iff_exists.mp (h2 hr)
    rw [resumeRecording_fires s r hm hr hpa, phase_recording_iff]
    exact ⟨hp, hr, rfl⟩
  · intro h
    obtain ⟨hp, hr, hpa⟩ := (phase_recording_iff s).mp h
    obtain ⟨r, hm⟩ := Option.isSome_iff_exists.mp (h2 hr)
    rw [stopRecording_fires s r hm hr, phase_stopped_iff]
    exact ⟨hp, rfl, rfl⟩
  · intro h
    obtain ⟨hp, hr, hpa⟩ := (phase_paused_iff s).mp h
    obtain ⟨r, hm⟩ := Option.isSome_iff_exists.mp (h2 hr)
    rw [stopRecording_fires s r hm hr, phase_stopped_iff]
    exact ⟨hp, rfl, rfl⟩
  · intro h
    have hp : s.hasPermissions = true := by
      rcases h with h | h | h
      · exact ((phase_recording_iff s).mp h).1
      · exact ((phase_paused_iff s).mp h).1
      · exact ((phase_stopped_iff s).mp h).1
    obtain ⟨k, hsr⟩ := Option.isSome_iff_exists.mp (h5 hp)
    rw [startRecording_fires s k hsr]
    exact ⟨(phase_recording_iff _).mpr ⟨hp, rfl, rfl⟩, rfl, rfl⟩

/-- Witness for the amended C2 at the concrete trace `accessOk; start;
pause`: there the phase is `paused`, so `pause()` is a no-op. -/
theorem c2_transitions_amended_witness :
    pauseRecording (run init [Ev.accessOk, Ev.start, Ev.pause]) =
      run init [Ev.accessOk, Ev.start, Ev.pause] :=
  (c2_transitions_amended [Ev.accessOk, Ev.start, Ev.pause]).2.1 (by decide)

/-! ## Recording sessions: chunk accumulation and the emitted result

A recording session is `start()`, a body of mid-session events (clock
ticks, pause/resume, chunk deliveries), and a terminating `stop()`. -/

/-- Mid-session events: everything but `start`/`stop`/permission events. -/
inductive Mid
  | tick
  | pause
  | resume
  | data (c : List Nat)
deriving DecidableEq, Repr

def Mid.toEv : Mid → Ev
  | Mid.tick => Ev.tick
  | Mid.pause => Ev.pause
  | Mid.resume => Ev.resume
  | Mid.data c => Ev.data c

/-- Spec-side definition, written from the claim: the chunks emitted
between `start()`/`resume()` and the next `pause()`/the terminating
`stop()` — i.e. while not paused — in emission (FIFO) order, with every
zero-length chunk excluded.  The Boolean argument is the paused flag at
the start of the body (`false` right after `start()`). -/
def emittedChunks : List Mid → Bool → List (List Nat)
  | [], _ => []
  | Mid.tick :: r, p => emittedChunks r p
  | Mid.pause :: r, _ => emittedChunks r true
  | Mid.resume :: r, _ => emittedChunks r false
  | Mid.data c :: r, p => (if !p && c.length != 0 then [c] else []) ++ emittedChunks r p

/-- The paused flag at the end of a body of mid-session events. -/
def finalPaused : List Mid → Bool → Bool
  | [], p => p
  | Mid.tick :: r, p => finalPaused r p
  | Mid.pause :: r, _ => finalPaused r true
  | Mid.resume :: r, _ => finalPaused r false
  | Mid.data _ :: r, p => finalPaused r p

/-- Timer ticks from `setInterval` change at most the duration counter. -/
theorem intervalTick_preserves (s : CState) :
    (intervalTick s).recordingState.isRecording = s.recordingState.isRecording ∧
    (intervalTick s).recordingState.isPaused = s.recordingState.isPaused ∧
    (intervalTick s).recordingState.videoBlob = s.recordingState.videoBlob ∧
    (intervalTick s).mediaRecorder = s.mediaRecorder ∧
    (intervalTick s).chunks = s.chunks ∧
    (intervalTick s).emitted = s.emitted ∧
    (intervalTick s).hasPermissions = s.hasPermissions ∧
    (intervalTick s).streamRef = s.streamRef := by
  unfold intervalTick
  split
  · split
    · exact ⟨rfl, rfl, rfl, rfl, rfl, rfl, rfl, rfl⟩
    · exact ⟨rfl, rfl, rfl, rfl, rfl, rfl, rfl, rfl⟩
  · exact ⟨rfl, rfl, rfl, rfl, rfl, rfl, rfl, rfl⟩

theorem run_map_cons (s : CState) (m : Mid) (rest : List Mid) :
    run s ((m :: rest).map Mid.toEv) = run (step s m.toEv) (rest.map Mid.toEv) := rfl

/-- Coupling between the component state and the spec-side fold through a
body of mid-session events: within a session the recorder instance is
stable (only its platform state toggles), the chunk accumulator grows by
exactly the non-empty chunks emitted while unpaused, and nothing is
emitted before the terminating stop. -/
theorem bodyRun (body : List Mid) :
    ∀ (s : CState) (p : Bool) (r : Recorder),
      s.mediaRecorder = some r →
      r.rstate = (if p then RState.paused else RState.recording) →
      s.recordingState.isRecording = true →
      s.recordingState.isPaused = p →
      (run s (body.map Mid.toEv)).recordingState.isRecording = true ∧
      (run s (body.map Mid.toEv)).mediaRecorder =
        some { r with
               rstate := if finalPaused body p then RState.paused else RState.recording } ∧
      (run s (body.map Mid.toEv)).recordingState.isPaused = finalPaused body p ∧
      (run s (body.map Mid.toEv)).chunks = s.chunks ++ emittedChunks body p ∧
      (run s (body.map Mid.toEv)).emitted = s.emitted := by
  induction body with
  | nil =>
    intro s p r hm hr hrec hpa
    refine ⟨hrec, ?_, ?_, ?_, rfl⟩
    · show s.mediaRecorder = _
      rw [hm]
      simp only [finalPaused]
      rw [← hr]
    · simpa only [finalPaused] using hpa
    · simp [run, emittedChunks]
  | cons m rest ih =>
    intro s p r hm hr hrec hpa
    rw [run_map_cons]
    cases m with
    | tick =>
      simp only [Mid.toEv, step]
      obtain ⟨p1, p2, _, p4, p5, p6, _, _⟩ := intervalTick_preserves s
      obtain ⟨i1, i2, i3, i4, i5⟩ := ih (intervalTick s) p r (by rw [p4, hm]) hr
        (by rw [p1, hrec]) (by rw [p2, hpa])
      refine ⟨i1, ?_, ?_, ?_, ?_⟩
      · simp only [finalPaused]
        exact i2
      · simp only [finalPaused]
        exact i3
      · simp only [emittedChunks]
        rw [i4, p5]
      · rw [i5, p6]
    | pause =>
      simp only [Mid.toEv, step]
      cases p with
      | true =>
        rw [pauseRecording_noop s (Or.inr hpa)]
        obtain ⟨i1, i2, i3, i4, i5⟩ := ih s true r hm hr hrec hpa
        refine ⟨i1, ?_, ?_, ?_, i5⟩
        · simp only [finalPaused]
          exact i2
        · simp only [finalPaused]
          exact i3
        · simp only [emittedChunks]
          exact i4
      | false =>
        have hfire := pauseRecording_fires s r hm hrec hpa
        obtain ⟨i1, i2, i3, i4, i5⟩ := ih (pauseRecording s) true
          { r with rstate := RState.paused }
          (by rw [hfire]) rfl (by rw [hfire]; exact hrec) (by rw [hfire])
        refine ⟨i1, ?_, ?_, ?_, ?_⟩
        · simp only [finalPaused]
          exact i2
        · simp only [finalPaused]
          exact i3
        · simp only [emittedChunks]
          rw [i4, hfire]
        · rw [i5, hfire]
    | resume =>
      simp only [Mid.toEv, step]
      cases p with
      | false =>
        rw [resumeRecording_noop s (Or.inr hpa)]
        obtain ⟨i1, i2, i3, i4, i5⟩ := ih s false r hm hr hrec hpa
        refine ⟨i1, ?_, ?_, ?_, i5⟩
        · simp only [finalPaused]
          exact i2
        · simp only [finalPaused]
          exact i3
        · simp only [emittedChunks]
          exact i4
      | true =>
        have hfire := resumeRecording_fires s r hm hrec hpa
        obtain ⟨i1, i2, i3, i4, i5⟩ := ih (resumeRecording s) false
          { r with rstate := RState.recording }
          (by rw [hfire]) rfl (by rw [hfire]; exact hrec) (by rw [hfire])
        refine ⟨i1, ?_, ?_, ?_, ?_⟩
        · simp only [finalPaused]
          exact i2
        · simp only [finalPaused]
          exact i3
        · simp only [emittedChunks]
          rw [i4, hfire]
        · rw [i5, hfire]
    | data c =>
      simp only [Mid.toEv, step]
      cases p with
      | true =>
        have hr' : r.rstate = RState.paused := hr
        have e : onDataAvailable s c = s := by
          unfold onDataAvailable
          rw [hm]
          simp [hr']
        rw [e]
        obtain ⟨i1, i2, i3, i4, i5⟩ := ih s true r hm hr hrec hpa
        refine ⟨i1, ?_, ?_, ?_, i5⟩
        · simp only [finalPaused]
          exact i2
        · simp only [finalPaused]
          exact i3
        · simp only [emittedChunks]
          simpa using i4
      | false =>
        have hr' : r.rstate = RState.recording := hr
        by_cases hc : 0 < c.length
        · have e : onDataAvailable s c = { s with chunks := s.chunks ++ [c] } := by
            unfold onDataAvailable
            rw [hm]
            simp [hr', hc]
          rw [e]
          obtain ⟨i1, i2, i3, i4, i5⟩ := ih { s with chunks := s.chunks ++ [c] } false r hm hr
            hrec hpa
          refine ⟨i1, ?_, ?_, ?_, i5⟩
          · simp only [finalPaused]
            exact i2
          · simp only [finalPaused]
            exact i3
          · simp only [emittedChunks]
            rw [i4]
            have hne : c.length ≠ 0 := Nat.pos_iff_ne_zero.mp hc
            simp [hne, List.append_assoc]
        · have h0 : c.length = 0 := by omega
          have e : onDataAvailable s c = s := by
            unfold onDataAvailable
            rw [hm]
            simp [hr', h0]
          rw [e]
          obtain ⟨i1, i2, i3, i4, i5⟩ := ih s false r hm hr hrec hpa
          refine ⟨i1, ?_, ?_, ?_, i5⟩
          · simp only [finalPaused]
            exact i2
          · simp only [finalPaused]
            exact i3
          · simp only [emittedChunks]
            simp [h0]
            simpa using i4

/-- A full session from any state with a bound stream: `start()`, a body of
mid-session events, then `stop()` emits exactly one `RecordingResult`; its
artifact is the concatenation of the non-empty chunks emitted while
unpaused, and its duration is the elapsed-seconds value that was current
when `start()` ran (captured by the `onstop` closure). -/
theorem session_emitted (s0 : CState) (k : Nat) (body : List Mid)
    (h : s0.streamRef = some k) :
    (run s0 (Ev.start :: (body.map Mid.toEv ++ [Ev.stop]))).emitted =
      ⟨(emittedChunks body false).flatten, s0.recordingState.duration⟩ :: s0.emitted := by
  have hs1 := startRecording_fires s0 k h
  have hsplit : run s0 (Ev.start :: (body.map Mid.toEv ++ [Ev.stop])) =
      stopRecording (run (startRecording s0) (body.map Mid.toEv)) := by
    show run (startRecording s0) (body.map Mid.toEv ++ [Ev.stop]) = _
    rw [run, List.foldl_append]
    rfl
  obtain ⟨i1, i2, i3, i4, i5⟩ := bodyRun body (startRecording s0) false
    ⟨RState.recording, s0.recordingState.duration, s0.nextRid⟩
    (by rw [hs1]) rfl (by rw [hs1]) (by rw [hs1])
  have hstop := stopRecording_fires (run (startRecording s0) (body.map Mid.toEv)) _ i2 i1
  rw [hsplit, hstop]
  have hch : (startRecording s0).chunks = [] := by rw [hs1]
  have hem : (startRecording s0).emitted = s0.emitted := by rw [hs1]
  simp [i4, i5, hch, hem]

/-- C5: for every recording session ending in `stop()` — run from any state
with a bound stream, over any body of mid-session events — the finalized
artifact's byte content equals the concatenation, in emission (FIFO) order,
of the chunks emitted during the unpaused intervals between
`start()`/`resume()` and the terminating `stop()`, with every zero-length
chunk excluded. -/
theorem c5_artifact_integrity (s0 : CState) (k : Nat) (body : List Mid)
    (h : s0.streamRef = some k) :
    ((run s0 (Ev.start :: (body.map Mid.toEv ++ [Ev.stop]))).emitted.head?.map
        RecordingResult.videoBlob) =
      some (emittedChunks body false).flatten := by
  rw [session_emitted s0 k body h]
  rfl

/-- Witness for C5: a concrete session with chunks `[1,2]` and (while
paused, hence not emitted) `[3]`, then `[4]` after resume, and a zero-length
chunk; the artifact is `[1,2] ++ [4]`. -/
theorem c5_artifact_integrity_witness :
    ((run (run init [Ev.accessOk])
        (Ev.start :: ([Mid.data [1, 2], Mid.tick, Mid.pause, Mid.data [3], Mid.resume,
          Mid.data [4], Mid.data []].map Mid.toEv ++ [Ev.stop]))).emitted.head?.map
        RecordingResult.videoBlob) = some [1, 2, 4] := by
  rw [c5_artifact_integrity (run init [Ev.accessOk]) 0
    [Mid.data [1, 2], Mid.tick, Mid.pause, Mid.data [3], Mid.resume, Mid.data [4], Mid.data []]
    (by decide)]
  decide

/-- C10: for every recording ended by `stop()`, the `duration` field of the
emitted `RecordingResult` equals the elapsed-seconds value that was current
at the moment `start()` was invoked, because the `onstop` completion
handler captured that value when `start()` ran; it is not recomputed from
the counter at the time of `stop()`. -/
theorem c10_duration_captured_at_start (s0 : CState) (k : Nat) (body : List Mid)
    (h : s0.streamRef = some k) :
    ((run s0 (Ev.start :: (body.map Mid.toEv ++ [Ev.stop]))).emitted.head?.map
        RecordingResult.duration) =
      some s0.recordingState.duration := by
  rw [session_emitted s0 k body h]
  rfl

/-- Witness for C10: a first recording (pre-start elapsed value 0) that
ticks twice before stopping still reports duration 0. -/
theorem c10_duration_captured_at_start_witness :
    ((run (run init [Ev.accessOk])
        (Ev.start :: ([Mid.tick, Mid.tick].map Mid.toEv ++ [Ev.stop]))).emitted.head?.map
        RecordingResult.duration) = some 0 := by
  rw [c10_duration_captured_at_start (run init [Ev.accessOk]) 0 [Mid.tick, Mid.tick] (by decide)]
  decide

/-- The end-to-end scenario of C1: access granted, `start()`, chunks
`[1,2]` and `[9]` during the first recording interval with 5 ticks,
`pause()`, 3 ticks, `resume()`, 2 ticks, a zero-length chunk and `[7,7]`
during the second interval, `stop()`. -/
def c1Trace : List Ev :=
  [Ev.accessOk, Ev.start, Ev.data [1, 2], Ev.tick, Ev.tick, Ev.tick, Ev.tick, Ev.tick,
   Ev.data [9], Ev.pause, Ev.tick, Ev.tick, Ev.tick, Ev.resume, Ev.tick, Ev.tick,
   Ev.data [], Ev.data [7, 7], Ev.stop]

/-- C1 (what the code actually does on the claimed scenario): after the
trace the phase is `stopped`, the elapsed-seconds counter reads 7, the
emitted artifact is exactly the chunks of the two recording intervals —
but the emitted `RecordingResult.duration` is 0, the elapsed value the
`onstop` closure captured when `start()` ran, not 7 as the claim states. -/
theorem c1_scenario_actual :
    (run init c1Trace).emitted = [⟨[1, 2, 9, 7, 7], 0⟩] ∧
    (run init c1Trace).recordingState.duration = 7 ∧
    phase (run init c1Trace) = Phase.stopped := by
  decide

/-! ## Elapsed-seconds monotonicity (C4) -/

theorem intervalTick_intervals (s : CState) : (intervalTick s).intervals = s.intervals := by
  unfold intervalTick
  split
  · split
    · rfl
    · rfl
  · rfl

theorem onDataAvailable_intervals (s : CState) (c : List Nat) :
    (onDataAvailable s c).intervals = s.intervals := by
  unfold onDataAvailable
  split
  · rfl
  · split
    · split
      · rfl
      · rfl
    · rfl

/-- A trace is well-started from `s` when `start()` is only ever invoked
while no recording is active (the UI hides the Start button during a
recording; invoking it anyway overwrites `intervalRef` and leaks the live
timer). -/
def goodFrom (s : CState) : List Ev → Bool
  | [] => true
  | e :: r =>
    (if e = Ev.start then !s.recordingState.isRecording else true) && goodFrom (step s e) r

/-- Timer-count invariant: exactly one live interval timer while a
recording is active, none otherwise.  It holds along well-started traces. -/
def TInv (s : CState) : Prop :=
  s.intervals = (if s.recordingState.isRecording then 1 else 0)

theorem tinv_init : TInv init := rfl

theorem tinv_step (s : CState) (e : Ev) (h : TInv s)
    (hg : e = Ev.start → s.recordingState.isRecording = false) : TInv (step s e) := by
  cases e with
  | accessOk => simpa [TInv, step, requestPermissionsGranted] using h
  | accessFail => exact h
  | start =>
    have hng := hg rfl
    show TInv (startRecording s)
    cases hs : s.streamRef with
    | none => rw [startRecording_noop s hs]; exact h
    | some k =>
      rw [startRecording_fires s k hs]
      rw [TInv, hng] at h
      simp only [TInv]
      simp [h]
  | stop =>
    show TInv (stopRecording s)
    cases hm : s.mediaRecorder with
    | none => unfold stopRecording; rw [hm]; exact h
    | some r =>
      cases hrec : s.recordingState.isRecording with
      | false => rw [stopRecording_noop s hrec]; exact h
      | true =>
        rw [stopRecording_fires s r hm hrec]
        rw [TInv, hrec] at h
        simp only [TInv]
        simp [h]
  | pause =>
    show TInv (pauseRecording s)
    unfold pauseRecording
    split
    · exact h
    · split
      · simpa [TInv] using h
      · exact h
  | resume =>
    show TInv (resumeRecording s)
    unfold resumeRecording
    split
    · exact h
    · split
      · simpa [TInv] using h
      · exact h
  | tick =>
    show TInv (intervalTick s)
    obtain ⟨p1, _⟩ := intervalTick_preserves s
    rw [TInv, intervalTick_intervals, p1]
    exact h
  | data c =>
    show TInv (onDataAvailable s c)
    obtain ⟨p1, _⟩ := onDataAvailable_preserves s c
    rw [TInv, onDataAvailable_intervals, p1]
    exact h

theorem tinv_run (t : List Ev) :
    ∀ s : CState, TInv s → goodFrom s t = true → TInv (run s t) := by
  induction t with
  | nil => exact fun s h _ => h
  | cons e r ih =>
    intro s h hg
    rw [show goodFrom s (e :: r) =
      ((if e = Ev.start then !s.recordingState.isRecording else true) && goodFrom (step s e) r)
      from rfl] at hg
    obtain ⟨hg1, hg2⟩ := Bool.and_eq_true .. |>.mp hg
    refine ih (step s e) (tinv_step s e h ?_) hg2
    intro he
    rw [he] at hg1
    simpa using hg1

theorem intervalTick_noop_zero (s : CState) (h : s.intervals = 0) : intervalTick s = s := by
  unfold intervalTick
  simp [h]

theorem intervalTick_noop_paused (s : CState) (h : s.recordingState.isPaused = true) :
    intervalTick s = s := by
  unfold intervalTick
  split
  · simp [h]
  · rfl

theorem intervalTick_incr (s : CState) (h1 : 0 < s.intervals)
    (h2 : s.recordingState.isPaused = false) :
    intervalTick s =
      { s with recordingState :=
          { s.recordingState with duration := s.recordingState.duration + 1 } } := by
  unfold intervalTick
  rw [if_pos h1, h2]
  simp

/-- One step never decreases the elapsed counter unless it is `start()`. -/
theorem duration_step_mono (s : CState) (e : Ev) (he : e ≠ Ev.start) :
    s.recordingState.duration ≤ (step s e).recordingState.duration := by
  cases e with
  | accessOk => exact Nat.le_refl _
  | accessFail => exact Nat.le_refl _
  | start => exact absurd rfl he
  | stop =>
    show s.recordingState.duration ≤ (stopRecording s).recordingState.duration
    unfold stopRecording
    split
    · exact Nat.le_refl _
    · split
      · exact Nat.le_refl _
      · exact Nat.le_refl _
  | pause =>
    show s.recordingState.duration ≤ (pauseRecording s).recordingState.duration
    unfold pauseRecording
    split
    · exact Nat.le_refl _
    · split
      · exact Nat.le_refl _
      · exact Nat.le_refl _
  | resume =>
    show s.recordingState.duration ≤ (resumeRecording s).recordingState.duration
    unfold resumeRecording
    split
    · exact Nat.le_refl _
    · split
      · exact Nat.le_refl _
      · exact Nat.le_refl _
  | tick =>
    show s.recordingState.duration ≤ (intervalTick s).recordingState.duration
    unfold intervalTick
    split
    · split
      · exact Nat.le_refl _
      · exact Nat.le_succ _
    · exact Nat.le_refl _
  | data c =>
    obtain ⟨e1, _⟩ := onDataAvailable_preserves s c
    show s.recordingState.duration ≤ (onDataAvailable s c).recordingState.duration
    rw [e1]

/-- C4, amended: across any sequence of clock ticks and session operations
in which `start()` is only invoked while no recording is active, the
elapsed-seconds counter is non-decreasing except at a `start()` transition;
a tick strictly increases it (by exactly one) if and only if the phase is
`recording` (ticks while paused leave it unchanged); no operation other
than `start()` can reset a nonzero counter to zero; and the `start()`
transition that begins a new recording resets it to zero.  (Without the
restriction, `start()` during an active recording leaks the previous
interval timer, which afterwards increments the counter even in
non-recording phases; see the counterexample.) -/
theorem c4_elapsed_monotonic_amended (t : List Ev) (hg : goodFrom init t = true) :
    (∀ e, e ≠ Ev.start →
      (run init t).recordingState.duration ≤ (step (run init t) e).recordingState.duration) ∧
    ((step (run init t) Ev.tick).recordingState.duration =
        (run init t).recordingState.duration + 1 ↔ phase (run init t) = Phase.recording) ∧
    (∀ e, e ≠ Ev.start → (step (run init t) e).recordingState.duration = 0 →
      (run init t).recordingState.duration = 0) ∧
    ((run init t).streamRef.isSome = true →
      (startRecording (run init t)).recordingState.duration = 0) := by
  obtain ⟨h1, h2, h3, h4, h5, h6, h7, h8, h9, h10⟩ := sinv_reach t
  have htinv : TInv (run init t) := tinv_run t init tinv_init hg
  set s := run init t with hs
  refine ⟨fun e he => duration_step_mono s e he, ⟨?_, ?_⟩, ?_, ?_⟩
  · intro hinc
    by_cases hz : s.intervals = 0
    · rw [show step s Ev.tick = intervalTick s from rfl, intervalTick_noop_zero s hz] at hinc
      omega
    · cases hpa : s.recordingState.isPaused with
      | true =>
        rw [show step s Ev.tick = intervalTick s from rfl,
          intervalTick_noop_paused s hpa] at hinc
        omega
      | false =>
        have hrec : s.recordingState.isRecording = true := by
          cases hr : s.recordingState.isRecording with
          | true => rfl
          | false =>
            rw [TInv, hr] at htinv
            simp at htinv
            exact absurd htinv hz
        exact (phase_recording_iff s).mpr ⟨h3 hrec, hrec, hpa⟩
  · intro hrec'
    obtain ⟨hp, hr, hpa⟩ := (phase_recording_iff s).mp hrec'
    have hint : 0 < s.intervals := by
      rw [TInv, hr] at htinv
      simp at htinv
      omega
    rw [show step s Ev.tick = intervalTick s from rfl, intervalTick_incr s hint hpa]
  · intro e he h0
    have := duration_step_mono s e he
    omega
  · intro hsr
    obtain ⟨k, hk⟩ := Option.isSome_iff_exists.mp hsr
    rw [startRecording_fires s k hk]

/-- Witness for the amended C4: right after `accessOk; start` the phase is
`recording` and a tick increments the elapsed counter by one. -/
theorem c4_elapsed_monotonic_amended_witness :
    (step (run init [Ev.accessOk, Ev.start]) Ev.tick).recordingState.duration =
      (run init [Ev.accessOk, Ev.start]).recordingState.duration + 1 :=
  ((c4_elapsed_monotonic_amended [Ev.accessOk, Ev.start] (by decide)).2.1).mpr (by decide)

/-- C4, counterexample to the claim as stated: calling `start()` twice in a
row and then `stop()` leaves the leaked first interval timer live, so the
next tick strictly increases the elapsed-seconds counter even though the
phase is `stopped`, not `recording`. -/
theorem c4_leaked_timer_counterexample :
    phase (run init [Ev.accessOk, Ev.start, Ev.start, Ev.stop]) = Phase.stopped ∧
    (step (run init [Ev.accessOk, Ev.start, Ev.start, Ev.stop]) Ev.tick).recordingState.duration =
      (run init [Ev.accessOk, Ev.start, Ev.start, Ev.stop]).recordingState.duration + 1 := by
  decide

/-! ## Stream lifetime (C6, C8) and terminal stop (C9) -/

/-- No transition of the component ever stops a stream's tracks: the set of
released streams is invariant under every event.  (The source contains no
`MediaStreamTrack.stop()` call and no unmount cleanup.) -/
theorem stoppedStreams_step (s : CState) (e : Ev) :
    (step s e).stoppedStreams = s.stoppedStreams := by
  cases e with
  | accessOk => rfl
  | accessFail => rfl
  | start =>
    show (startRecording s).stoppedStreams = _
    unfold startRecording
    split
    · rfl
    · rfl
  | stop =>
    show (stopRecording s).stoppedStreams = _
    unfold stopRecording
    split
    · rfl
    · split
      · rfl
      · rfl
  | pause =>
    show (pauseRecording s).stoppedStreams = _
    unfold pauseRecording
    split
    · rfl
    · split
      · rfl
      · rfl
  | resume =>
    show (resumeRecording s).stoppedStreams = _
    unfold resumeRecording
    split
    · rfl
    · split
      · rfl
      · rfl
  | tick =>
    show (intervalTick s).stoppedStreams = _
    unfold intervalTick
    split
    · split
      · rfl
      · rfl
    · rfl
  | data c =>
    obtain ⟨_, _, _, _, _, _, h, _⟩ := onDataAvailable_preserves s c
    exact h

theorem stoppedStreams_run (t : List Ev) :
    ∀ s : CState, (run s t).stoppedStreams = s.stoppedStreams := by
  induction t with
  | nil => exact fun s => rfl
  | cons e r ih => exact fun s => (ih (step s e)).trans (stoppedStreams_step s e)

/-- The stream allocation counter never decreases. -/
theorem nextStream_step_le (s : CState) (e : Ev) : s.nextStream ≤ (step s e).nextStream := by
  cases e with
  | accessOk => exact Nat.le_succ _
  | accessFail => exact Nat.le_refl _
  | start =>
    show s.nextStream ≤ (startRecording s).nextStream
    unfold startRecording
    split
    · exact Nat.le_refl _
    · exact Nat.le_refl _
  | stop =>
    show s.nextStream ≤ (stopRecording s).nextStream
    unfold stopRecording
    split
    · exact Nat.le_refl _
    · split
      · exact Nat.le_refl _
      · exact Nat.le_refl _
  | pause =>
    show s.nextStream ≤ (pauseRecording s).nextStream
    unfold pauseRecording
    split
    · exact Nat.le_refl _
    · split
      · exact Nat.le_refl _
      · exact Nat.le_refl _
  | resume =>
    show s.nextStream ≤ (resumeRecording s).nextStream
    unfold resumeRecording
    split
    · exact Nat.le_refl _
    · split
      · exact Nat.le_refl _
      · exact Nat.le_refl _
  | tick =>
    show s.nextStream ≤ (intervalTick s).nextStream
    unfold intervalTick
    split
    · split
      · exact Nat.le_refl _
      · exact Nat.le_refl _
    · exact Nat.le_refl _
  | data c =>
    obtain ⟨_, _, _, _, h, _⟩ := onDataAvailable_preserves s c
    exact Nat.le_of_eq h.symm

theorem nextStream_run_le (t : List Ev) :
    ∀ s : CState, s.nextStream ≤ (run s t).nextStream := by
  induction t with
  | nil => exact fun s => Nat.le_refl _
  | cons e r ih => exact fun s => Nat.le_trans (nextStream_step_le s e) (ih (step s e))

/-- C6 fails on the code: the stream granted by `requestAccess` remains
active forever.  After the grant, no continuation of the run — `stop()`,
further sessions, or any other events standing in for an exit path —
deactivates it: the component has no release on any path. -/
theorem c6_stream_never_released (t : List Ev) :
    streamActive (run init (Ev.accessOk :: t)) 0 = true := by
  have e : run init (Ev.accessOk :: t) = run (requestPermissionsGranted init) t := rfl
  rw [e]
  have hss : (run (requestPermissionsGranted init) t).stoppedStreams = [] :=
    stoppedStreams_run t (requestPermissionsGranted init)
  have hns : 1 ≤ (run (requestPermissionsGranted init) t).nextStream :=
    nextStream_run_le t (requestPermissionsGranted init)
  simp [streamActive, hss]
  omega

/-- C8: a second successful `requestAccess` binds a fresh stream handle
(the new id is the allocator's next id, distinct from the prior one), and
the previously granted stream is not released by that call — it is active
before and still active after. -/
theorem c8_rerequest_fresh_stream (t : List Ev) (k : Nat)
    (h : (run init t).streamRef = some k) :
    (requestPermissionsGranted (run init t)).streamRef = some (run init t).nextStream ∧
    k ≠ (run init t).nextStream ∧
    streamActive (run init t) k = true ∧
    streamActive (requestPermissionsGranted (run init t)) k = true := by
  obtain ⟨h1, h2, h3, h4, h5, h6, h7, h8, h9, h10⟩ := sinv_reach t
  set s := run init t with hs
  have hk : k < s.nextStream := h8 k h
  refine ⟨rfl, by omega, ?_, ?_⟩
  · simp [streamActive, h10]
    omega
  · simp [streamActive, requestPermissionsGranted, h10]
    omega

/-- Witness for C8 after one successful grant (stream 0). -/
theorem c8_rerequest_fresh_stream_witness :
    (requestPermissionsGranted (run init [Ev.accessOk])).streamRef =
      some (run init [Ev.accessOk]).nextStream ∧
    0 ≠ (run init [Ev.accessOk]).nextStream ∧
    streamActive (run init [Ev.accessOk]) 0 = true ∧
    streamActive (requestPermissionsGranted (run init [Ev.accessOk])) 0 = true :=
  c8_rerequest_fresh_stream [Ev.accessOk] 0 (by decide)

/-- C9: in any reachable `stopped` state the session instance is terminal:
the stopped recorder is inactive; `pause()`, `resume()` and `stop()` are
exact no-ops; a timer tick leaves the phase `stopped` and neither touches
the recorder nor produces chunks or results; and `start()` does not revive
the stopped instance — it constructs a fresh recorder (a new session) with
a new allocation id. -/
theorem c9_stopped_terminal (t : List Ev) (h : phase (run init t) = Phase.stopped) :
    pauseRecording (run init t) = run init t ∧
    resumeRecording (run init t) = run init t ∧
    stopRecording (run init t) = run init t ∧
    phase (intervalTick (run init t)) = Phase.stopped ∧
    (intervalTick (run init t)).chunks = (run init t).chunks ∧
    (intervalTick (run init t)).mediaRecorder = (run init t).mediaRecorder ∧
    (intervalTick (run init t)).emitted = (run init t).emitted ∧
    ∃ r, (run init t).mediaRecorder = some r ∧ r.rstate = RState.inactive ∧
      (startRecording (run init t)).mediaRecorder =
        some ⟨RState.recording, (run init t).recordingState.duration, (run init t).nextRid⟩ ∧
      r.rid ≠ (run init t).nextRid := by
  obtain ⟨h1, h2, h3, h4, h5, h6, h7, h8, h9, h10⟩ := sinv_reach t
  set s := run init t with hs
  obtain ⟨hp, hrec, hb⟩ := (phase_stopped_iff s).mp h
  obtain ⟨r, hm, hinact⟩ := h9 hb hrec
  obtain ⟨p1, p2, p3, p4, p5, p6, p7, p8⟩ := intervalTick_preserves s
  refine ⟨pauseRecording_noop s (Or.inl hrec), resumeRecording_noop s (Or.inl hrec),
    stopRecording_noop s hrec, ?_, p5, p4, p6, r, hm, hinact, ?_, ?_⟩
  · rw [phase_stopped_iff]
    exact ⟨by rw [p7]; exact hp, by rw [p1]; exact hrec, by rw [p3]; exact hb⟩
  · obtain ⟨k, hk⟩ := Option.isSome_iff_exists.mp (h5 hp)
    rw [startRecording_fires s k hk]
  · have := h7 r hm
    omega

/-- Witness for C9 at the concrete trace `accessOk; start; stop`. -/
theorem c9_stopped_terminal_witness :
    pauseRecording (run init [Ev.accessOk, Ev.start, Ev.stop]) =
      run init [Ev.accessOk, Ev.start, Ev.stop] ∧
    phase (intervalTick (run init [Ev.accessOk, Ev.start, Ev.stop])) = Phase.stopped := by
  have h := c9_stopped_terminal [Ev.accessOk, Ev.start, Ev.stop] (by decide)
  exact ⟨h.1, h.2.2.2.1⟩

/-! ## Display formatting (C7) -/

/-- JS `String.prototype.padStart(n, c)`: prepend copies of `c` until the
length is at least `n`. -/
def padStart (s : String) (n : Nat) (c : Char) : String :=
  String.mk (List.replicate (n - s.length) c) ++ s

/-- Function `formatDuration` (lines 149-153): minutes `Math.floor(seconds / 60)`
and seconds `seconds % 60`, each rendered in decimal and padded with `'0'`
to width 2, joined by a colon. -/
def formatDuration (seconds : Nat) : String :=
  let mins := seconds / 60
  let secs := seconds % 60
  padStart (Nat.repr mins) 2 '0' ++ ":" ++ padStart (Nat.repr secs) 2 '0'

theorem padStart_length (s : String) (n : Nat) (c : Char) :
    (padStart s n c).length = (n - s.length) + s.length := by
  simp [padStart, String.length_append]

example : formatDuration 125 = "02:05" := by decide
example : formatDuration 7 = "00:07" := by decide
example : formatDuration 3601 = "60:01" := by decide

/-- C7: the elapsed-seconds display is `MM:SS`, zero-padded: for every
non-negative number of seconds `n`, `formatDuration n` is the decimal
rendering of `n / 60` left-padded with zeros to at least two digits, a
colon, then `n % 60` left-padded with zeros to exactly two digits (the
seconds field always has width 2; the minutes field has width at least 2
and grows beyond 99 minutes). -/
theorem c7_format_duration (n : Nat) :
    formatDuration n =
      padStart (Nat.repr (n / 60)) 2 '0' ++ ":" ++ padStart (Nat.repr (n % 60)) 2 '0' ∧
    (padStart (Nat.repr (n % 60)) 2 '0').length = 2 ∧
    2 ≤ (padStart (Nat.repr (n / 60)) 2 '0').length := by
  refine ⟨rfl, ?_, ?_⟩
  · have hm : n % 60 < 100 := by
      have := Nat.mod_lt n (show 0 < 60 by norm_num)
      omega
    have hlen : (Nat.repr (n % 60)).length ≤ 2 := by
      refine Nat.repr_length _ 2 (by norm_num) ?_
      norm_num
      omega
    rw [padStart_length]
    omega
  · rw [padStart_length]
    omega
